import Mathlib

/-!
Verification of the SatPi durable upload queue and multi-transport
fallback engine, shallowly embedded from the Python sources
(`data-uploader.py`, `data-uploader-fixed.py`, `ssh-uploader.py`,
`simple-satellite-uploader.py`, `simple-upload.py`).

Python strings are modelled as `List Char`; file contents as byte lists
(`List Nat`, each byte < 256); the filesystem, the network and remote
processes as explicit oracle parameters.
-/

namespace SatPi

/-! ## Python string primitives -/

/-- The whitespace characters removed by Python's `str.strip()`. -/
def pyIsSpace (c : Char) : Bool :=
  c = ' ' || c = '\t' || c = '\n' || c = '\r' || c = '\x0b' || c = '\x0c'

/-- Left part of `str.strip()`: drop leading whitespace. -/
def stripLeft (l : List Char) : List Char := l.dropWhile pyIsSpace

/-- Right part of `str.strip()`: drop trailing whitespace. -/
def stripRight (l : List Char) : List Char := l.rdropWhile pyIsSpace

/-- Python `str.strip()` with no argument: remove leading and trailing
whitespace. -/
def pyStrip (l : List Char) : List Char := stripRight (stripLeft l)

/-- Python `str.split(sep)` for a one-character separator: split at every
occurrence of `sep`, without merging adjacent separators; the empty string
yields `[""]`. -/
def pySplit (sep : Char) : List Char → List (List Char)
  | [] => [[]]
  | c :: rest =>
    let r := pySplit sep rest
    if c = sep then [] :: r
    else
      match r with
      | [] => [[c]]
      | h :: t => (c :: h) :: t

/-- Python `file.readlines()`: split the content into lines, each keeping
its trailing `'\n'`; a final fragment without a terminator is kept too. -/
def pyReadlines : List Char → List (List Char)
  | [] => []
  | c :: rest =>
    if c = '\n' then ['\n'] :: pyReadlines rest
    else
      match pyReadlines rest with
      | [] => [[c]]
      | h :: t => (c :: h) :: t

/-! ## Durable queue store

`process_upload_queue` (all variants) reads the queue with `readlines()`,
strips each line and skips blanks; `loadAll` is that entry view of a
queue-file content. The write-back at the end of the cycle rewrites the
file from `remaining_lines`. -/

/-- The ordered sequence of entries a processing cycle sees in a
queue-file content: `readlines()`, then `strip()` each line, skipping
blank lines (data-uploader-fixed.py lines 257-265, ssh-uploader.py lines
150-159). -/
def loadAll (content : List Char) : List (List Char) :=
  ((pyReadlines content).map pyStrip).filter (fun l => l ≠ [])

/-- The queue rewrite of data-uploader.py line 303 and
data-uploader-fixed.py line 310: `f.writelines(line + '\n' for line in
remaining_lines)` — each entry followed by a newline character. -/
def replaceWithNewline (entries : List (List Char)) : List Char :=
  (entries.map (fun e => e ++ ['\n'])).flatten

/-- The queue rewrite of ssh-uploader.py line 206 and
simple-satellite-uploader.py line 187: `f.writelines(line + '\\n' for
line in remaining_lines)` — each entry followed by the two literal
characters backslash and `n`, not by a newline. -/
def replaceWithEscaped (entries : List (List Char)) : List Char :=
  (entries.map (fun e => e ++ ['\\', 'n'])).flatten

/-- A well-formed queue entry as produced by the processing loop itself:
non-empty, already stripped, free of line terminators. Every element of
`remaining_lines` satisfies this (each is a non-blank `line.strip()`). -/
def goodEntry (e : List Char) : Prop :=
  e ≠ [] ∧ pyStrip e = e ∧ '\n' ∉ e ∧ '\r' ∉ e

instance (e : List Char) : Decidable (goodEntry e) := by
  unfold goodEntry; infer_instance

/-! ## Queue-line parsing

Two parsing disciplines occur in the sources.  `data-uploader-fixed.py`
(lines 268-274), `ssh-uploader.py` (lines 162-168) and
`simple-satellite-uploader.py` (lines 153-159) accept any line with at
least 3 pipe-delimited fields, defaulting the 4th (`kind`) to `"RAW"`;
`data-uploader.py` (lines 267-272) accepts only lines with exactly 3
fields. -/

/-- A parsed queue entry: `filepath`, `satellite_name`, `capture_time`,
`file_type`. -/
structure Entry where
  path : List Char
  label : List Char
  time : List Char
  kind : List Char
  deriving DecidableEq

/-- `parts = line.split('|'); if len(parts) < 3: drop; filepath,
satellite_name, capture_time = parts[:3]; file_type = parts[3] if
len(parts) > 3 else "RAW"` (data-uploader-fixed.py lines 268-274,
ssh-uploader.py lines 162-168). -/
def parseEntryFixed (line : List Char) : Option Entry :=
  let parts := pySplit '|' line
  if parts.length < 3 then none
  else some ⟨parts.getD 0 [], parts.getD 1 [], parts.getD 2 [],
    if parts.length > 3 then parts.getD 3 [] else ("RAW".toList)⟩

/-- `parts = line.split('|'); if len(parts) != 3: drop; filepath,
satellite_name, capture_time = parts` (data-uploader.py lines 267-272):
the original variant requires exactly 3 fields. -/
def parseEntryOrig (line : List Char) : Option (List Char × List Char × List Char) :=
  let parts := pySplit '|' line
  if parts.length = 3 then some (parts.getD 0 [], parts.getD 1 [], parts.getD 2 [])
  else none

/-! ## The queue-processing loop

The per-line loop of `process_upload_queue` is identical in
`data-uploader-fixed.py` (lines 260-306) and `ssh-uploader.py` (lines
153-202) at this granularity: strip the line, skip blanks, drop lines
with fewer than 3 fields (warning), drop entries whose file no longer
exists (warning), otherwise run the retry loop; on success the entry is
not requeued, on failure — or on an unexpected exception escaping the
per-entry `try` block — the stripped line is appended to
`remaining_lines` verbatim.

The oracle `fe` models `os.path.exists`; `run` models the outcome of the
per-entry body after the validity checks (the retry/upload block):
either it completes with a success flag or it raises. -/

/-- Outcome of the per-entry upload/retry block. -/
inductive RunResult where
  | completed (success : Bool)
  | raised
  deriving DecidableEq

/-- One pass of `process_upload_queue` over the snapshot `lines` (the
`readlines()` result), returning `(remaining_lines, attempted)`:
`remaining_lines` is the list written back at the end of the cycle,
`attempted` the stripped lines for which a delivery attempt was made. -/
def processLinesLog (fe : List Char → Bool) (run : List Char → RunResult) :
    List (List Char) → List (List Char) × List (List Char)
  | [] => ([], [])
  | l :: rest =>
    let line := pyStrip l
    let t := processLinesLog fe run rest
    if line = [] then t
    else
      match parseEntryFixed line with
      | none => t
      | some ent =>
        if fe ent.path then
          match run line with
          | .completed true => (t.1, line :: t.2)
          | .completed false => (line :: t.1, line :: t.2)
          | .raised => (line :: t.1, line :: t.2)
        else t

/-- The `remaining_lines` written back by one pass. -/
def remainingLines (fe : List Char → Bool) (run : List Char → RunResult)
    (lines : List (List Char)) : List (List Char) :=
  (processLinesLog fe run lines).1

/-- Whether one pass keeps a stripped line in the rewritten queue: the
line is non-blank, parses, its file exists, and the upload block did not
succeed (it failed or raised). -/
def keepsLine (fe : List Char → Bool) (run : List Char → RunResult)
    (line : List Char) : Bool :=
  match parseEntryFixed line with
  | none => false
  | some ent => fe ent.path && (run line ≠ RunResult.completed true)

/-- Whether one pass makes a delivery attempt for a stripped line: it is
non-blank, parses, and its file exists. -/
def attemptsLine (fe : List Char → Bool) (line : List Char) : Bool :=
  match parseEntryFixed line with
  | none => false
  | some ent => fe ent.path

/-! ## The retry loop and strategy ordering (data-uploader-fixed.py)

`process_upload_queue` attempts `upload_file` up to
`SERVER_CONFIG["retry_attempts"]` times (lines 280-289), sleeping
`SERVER_CONFIG["retry_delay_seconds"]` between attempts but not after
the last; `upload_file` (lines 230-248) makes one full pass over the
strategy list `[FTP, Web]`, stopping at the first success. -/

/-- `SERVER_CONFIG["retry_attempts"]` (data-uploader-fixed.py line 36). -/
def retryAttempts : Nat := 3

/-- `SERVER_CONFIG["retry_delay_seconds"]` (data-uploader-fixed.py line 37). -/
def retryDelaySeconds : Nat := 60

/-- `SERVER_CONFIG["max_file_size_mb"] * 1024 * 1024`
(data-uploader-fixed.py lines 35 and 58). -/
def maxFileSizeFixed : Nat := 50 * 1024 * 1024

/-- One pass of `upload_file` (data-uploader-fixed.py lines 230-248) over
the method list `[("FTP", upload_via_ftp), ("Web", upload_via_direct_web)]`,
given each method's outcome: returns the overall success and the number
of methods invoked (the pass stops at the first success). -/
def uploadFileMethods (ftpRes webRes : Bool) : Bool × Nat :=
  if ftpRes then (true, 1)
  else if webRes then (true, 2)
  else (false, 2)

/-- The retry loop of data-uploader-fixed.py lines 281-289:
`for attempt in range(total): if upload: break; elif attempt <
total - 1: sleep(delay)`.  `remaining` counts the attempts still
allowed (initially `total`) and `i` is the current attempt index;
returns `(success, attemptsMade, sleeps)` where `sleeps` lists the delay
of each `time.sleep` call in order. -/
def retryLoop (attempt : Nat → Bool) (delay : Nat) : Nat → Nat → Bool × Nat × List Nat
  | 0, _ => (false, 0, [])
  | remaining + 1, i =>
    if attempt i then (true, 1, [])
    else
      let sl := if remaining > 0 then [delay] else []
      let rest := retryLoop attempt delay remaining (i + 1)
      (rest.1, rest.2.1 + 1, sl ++ rest.2.2)

/-! ## HTTP multi-endpoint strategy (data-uploader-fixed.py, simple-upload.py) -/

/-- What an HTTP POST to one endpoint produced: a status code, a
`requests.exceptions.RequestException` (network-level), or another
exception. -/
inductive HttpResult where
  | status (code : Nat)
  | netExn
  | otherExn
  deriving DecidableEq

/-- `_try_web_upload` (data-uploader-fixed.py lines 138-173): the attempt
succeeds iff `response.status_code in [200, 201, 202]`; both exception
handlers return `False`. -/
def tryWebUpload (r : HttpResult) : Bool :=
  match r with
  | .status code => code == 200 || code == 201 || code == 202
  | .netExn => false
  | .otherExn => false

/-- `upload_via_basic_http` (simple-upload.py lines 13-40): succeeds iff
`response.status_code == 200`; any exception returns `False`. -/
def uploadViaBasicHttp (r : HttpResult) : Bool :=
  match r with
  | .status code => code == 200
  | .netExn => false
  | .otherExn => false

/-- The candidate endpoints of `upload_via_direct_web`: the images
collection (`images/`), the raw-data directory (`raw/`), and the server
root. -/
inductive Endpoint where
  | images
  | raw
  | root
  deriving DecidableEq

/-- The `file_info` fields `upload_via_direct_web` consults: `size` and
`is_image` (data-uploader-fixed.py lines 83-89). -/
structure FileInfo where
  size : Nat
  isImage : Bool
  deriving DecidableEq

/-- Inner loop of `upload_via_direct_web`: try each endpoint in order
with `_try_web_upload`, returning at the first success; also log the
endpoints actually tried. -/
def tryEndpoints (res : Endpoint → HttpResult) : List Endpoint → Bool × List Endpoint
  | [] => (false, [])
  | e :: rest =>
    if tryWebUpload (res e) then (true, [e])
    else
      let r := tryEndpoints res rest
      (r.1, e :: r.2)

/-- `upload_via_direct_web` (data-uploader-fixed.py lines 106-136): fail
if `get_file_info` failed (`None`) or the file exceeds
`self.max_file_size`; otherwise try `images/` (images only), then
`raw/`, then the root, stopping at the first success.  Returns the
overall outcome and the endpoints tried. -/
def uploadViaDirectWeb (info : Option FileInfo) (res : Endpoint → HttpResult) :
    Bool × List Endpoint :=
  match info with
  | none => (false, [])
  | some fi =>
    if fi.size > maxFileSizeFixed then (false, [])
    else
      tryEndpoints res
        (if fi.isImage then [Endpoint.images, Endpoint.raw, Endpoint.root]
         else [Endpoint.raw, Endpoint.root])

/-! ## SCP/SSH strategy (ssh-uploader.py) -/

/-- Outcome of a `subprocess.run(..., timeout=...)` call: it completed
with a return code, or raised `subprocess.TimeoutExpired`. -/
inductive ProcResult where
  | completed (returncode : Nat)
  | timeout
  deriving DecidableEq

/-- The three remote directories of `SERVER_PATHS`
(ssh-uploader.py lines 23-27). -/
inductive Bucket where
  | raw
  | images
  | reports
  deriving DecidableEq

/-- `get_upload_path` (ssh-uploader.py lines 56-65), over the already
lower-cased extension `os.path.splitext(filepath)[1].lower()`. -/
def get_upload_path (ext : List Char) : Bucket :=
  if ext = (".jpg".toList) ∨ ext = (".jpeg".toList) ∨ ext = (".png".toList)
      ∨ ext = (".gif".toList) then Bucket.images
  else if ext = (".txt".toList) ∨ ext = (".json".toList) ∨ ext = (".log".toList) then
    Bucket.reports
  else Bucket.raw

/-- The 1 GB size limit of ssh-uploader.py line 76. -/
def sshSizeLimit : Nat := 1000 * 1024 * 1024

/-- `upload_file_ssh` (ssh-uploader.py lines 67-121): fail when the file
is missing or exceeds 1 GB; run `scp`; on return code 0, for files
routed to the images bucket run the `ln -sf` follow-up over `ssh` with a
30-second timeout, ignoring its result — except that a
`subprocess.TimeoutExpired` raised by it reaches the outer handler (line
116) and the function returns `False`.  Returns `(success, symlinkRan)`. -/
def upload_file_ssh (fileFound : Bool) (size : Nat) (ext : List Char)
    (scp : ProcResult) (symlink : ProcResult) : Bool × Bool :=
  if !fileFound then (false, false)
  else if size > sshSizeLimit then (false, false)
  else
    match scp with
    | .timeout => (false, false)
    | .completed rc =>
      if rc = 0 then
        if get_upload_path ext = Bucket.images then
          match symlink with
          | .timeout => (false, true)
          | .completed _ => (true, true)
        else (true, false)
      else (false, false)

/-! ## Fingerprint: streaming SHA-256 (`calculate_file_hash`)

`calculate_file_hash` (data-uploader-fixed.py lines 94-104,
data-uploader.py lines 161-171) feeds the file to `hashlib.sha256()` in
4096-byte chunks (`iter(lambda: f.read(4096), b"")`) and returns
`hexdigest()`.  The `hashlib` object is modelled by its documented
semantics: feeding chunks one by one hashes their concatenation.  SHA-256
itself is implemented below over byte lists, with 32-bit words as `Nat`
reduced `% 2^32`. -/

/-- Truncate to a 32-bit word. -/
def w32 (x : Nat) : Nat := x % 4294967296

/-- 32-bit right rotation. -/
def rotr32 (n x : Nat) : Nat := w32 ((x >>> n) ||| (x <<< (32 - n)))

def smallSigma0 (x : Nat) : Nat := (rotr32 7 x) ^^^ (rotr32 18 x) ^^^ (x >>> 3)

def smallSigma1 (x : Nat) : Nat := (rotr32 17 x) ^^^ (rotr32 19 x) ^^^ (x >>> 10)

def bigSigma0 (x : Nat) : Nat := (rotr32 2 x) ^^^ (rotr32 13 x) ^^^ (rotr32 22 x)

def bigSigma1 (x : Nat) : Nat := (rotr32 6 x) ^^^ (rotr32 11 x) ^^^ (rotr32 25 x)

/-- The SHA-256 round constants (FIPS 180-4), in decimal. -/
def shaK : List Nat :=
  [1116352408, 1899447441, 3049323471, 3921009573, 961987163,
   1508970993, 2453635748, 2870763221, 3624381080, 310598401,
   607225278, 1426881987, 1925078388, 2162078206, 2614888103,
   3248222580, 3835390401, 4022224774, 264347078, 604807628,
   770255983, 1249150122, 1555081692, 1996064986, 2554220882,
   2821834349, 2952996808, 3210313671, 3336571891, 3584528711,
   113926993, 338241895, 666307205, 773529912, 1294757372,
   1396182291, 1695183700, 1986661051, 2177026350, 2456956037,
   2730485921, 2820302411, 3259730800, 3345764771, 3516065817,
   3600352804, 4094571909, 275423344, 430227734, 506948616,
   659060556, 883997877, 958139571, 1322822218, 1537002063,
   1747873779, 1955562222, 2024104815, 2227730452, 2361852424,
   2428436474, 2756734187, 3204031479, 3329325298]

/-- The SHA-256 initial state (FIPS 180-4), in decimal. -/
def shaH0 : List Nat :=
  [1779033703, 3144134277, 1013904242, 2773480762,
   1359893119, 2600822924, 528734635, 1541459225]

/-- `x` as `n` big-endian bytes. -/
def toBytesBE (n x : Nat) : List Nat :=
  (List.range n).map (fun i => (x >>> (8 * (n - 1 - i))) % 256)

/-- Big-endian bytes to a word. -/
def bytesToWordBE (b : List Nat) : Nat := b.foldl (fun a c => a * 256 + c % 256) 0

/-- Split a list into chunks of `n` elements (the last may be shorter);
used both for the 4096-byte file reads and the 64-byte SHA-256 blocks. -/
def chunksOf (n : Nat) (l : List α) : List (List α) :=
  match l, n with
  | [], _ => []
  | _ :: _, 0 => []
  | c :: cs, m + 1 => ((c :: cs).take (m + 1)) :: chunksOf (m + 1) ((c :: cs).drop (m + 1))
termination_by l.length
decreasing_by simp [List.length_drop]; omega

/-- SHA-256 padding: `0x80`, zeros to 56 mod 64, then the bit length as
8 big-endian bytes. -/
def sha256pad (msg : List Nat) : List Nat :=
  let L := msg.length
  msg ++ 0x80 :: (List.replicate ((120 - (L + 1) % 64) % 64) 0 ++ toBytesBE 8 (8 * L))

/-- One SHA-256 round. -/
def shaRound (st : List Nat) (k w : Nat) : List Nat :=
  match st with
  | [a, b, c, d, e, f, g, h] =>
    let ch := (e &&& f) ^^^ ((e ^^^ 0xffffffff) &&& g)
    let t1 := w32 (h + bigSigma1 e + ch + k + w)
    let maj := (a &&& b) ^^^ (a &&& c) ^^^ (b &&& c)
    let t2 := w32 (bigSigma0 a + maj)
    [w32 (t1 + t2), a, b, c, w32 (d + t1), e, f, g]
  | other => other

/-- Extend the 16 block words to the 64-word message schedule. -/
def shaSchedule (ws : List Nat) : List Nat :=
  (List.range 48).foldl
    (fun acc _ =>
      acc ++ [w32 (smallSigma1 (acc.getD (acc.length - 2) 0)
        + acc.getD (acc.length - 7) 0
        + smallSigma0 (acc.getD (acc.length - 15) 0)
        + acc.getD (acc.length - 16) 0)])
    ws

/-- Compress one 64-byte block into the state. -/
def shaCompress (H : List Nat) (block : List Nat) : List Nat :=
  let ws := shaSchedule ((chunksOf 4 block).map bytesToWordBE)
  let st := (shaK.zip ws).foldl (fun s kw => shaRound s kw.1 kw.2) H
  (H.zip st).map (fun p => w32 (p.1 + p.2))

/-- SHA-256 digest of a byte list, as 32 bytes. -/
def sha256bytes (msg : List Nat) : List Nat :=
  ((chunksOf 64 (sha256pad msg)).foldl shaCompress shaH0).map (toBytesBE 4) |>.flatten

def hexDigit (n : Nat) : Char :=
  if n < 10 then Char.ofNat (48 + n) else Char.ofNat (87 + n)

/-- `hexdigest()`: the digest bytes in lowercase hex. -/
def sha256hex (msg : List Nat) : List Char :=
  ((sha256bytes msg).map (fun b => [hexDigit (b / 16 % 16), hexDigit (b % 16)])).flatten

/-- A filesystem: contents of readable files by path (`None` models a
file that cannot be opened; `calculate_file_hash` then returns `None`
through its exception handler). -/
def FS : Type := List Char → Option (List Nat)

/-- `calculate_file_hash` (data-uploader-fixed.py lines 94-104 and
identically data-uploader.py lines 161-171): open the file, feed it to
`hashlib.sha256()` in 4096-byte chunks, return the hex digest; on any
exception return `None`.  The chunked `update` calls hash the
concatenation of the chunks. -/
def calculate_file_hash (fs : FS) (filepath : List Char) : Option (List Char) :=
  match fs filepath with
  | none => none
  | some content => some (sha256hex ((chunksOf 4096 content).flatten))

/-! ## Concrete sample data for witnesses and counterexamples -/

/-- A well-formed 4-field queue line (the spec's own example). -/
def sampleLine : List Char := ("/data/a.raw|NOAA-18|2024-01-01T00:00:00|RAW".toList)

/-- A second well-formed 4-field queue line. -/
def sampleLine2 : List Char := ("/data/b.raw|NOAA-19|2024-01-02T00:00:00|RAW".toList)

/-- The parse of `sampleLine`. -/
def sampleEntry : Entry :=
  ⟨("/data/a.raw".toList), ("NOAA-18".toList), ("2024-01-01T00:00:00".toList), ("RAW".toList)⟩

/-- A non-image `file_info` one byte over the fixed variant's size cap. -/
def oversizeInfo : FileInfo := ⟨maxFileSizeFixed + 1, false⟩

/-! ## Supporting lemmas -/

/-! ### Round-trip lemmas for the store -/

theorem length_dropWhile_le (p : Char → Bool) (l : List Char) :
    (l.dropWhile p).length ≤ l.length := by
  induction l with
  | nil => simp
  | cons c cs ih =>
    rw [List.dropWhile_cons]
    split
    · exact Nat.le_trans ih (Nat.le_succ _)
    · exact Nat.le_refl _

theorem pyReadlines_append_newline (e rest : List Char) (he : '\n' ∉ e) :
    pyReadlines (e ++ '\n' :: rest) = (e ++ ['\n']) :: pyReadlines rest := by
  induction e with
  | nil => simp [pyReadlines]
  | cons c cs ih =>
    have hc : c ≠ '\n' := fun h => he (h ▸ List.mem_cons_self c cs)
    have hcs : '\n' ∉ cs := fun h => he (List.mem_cons_of_mem c h)
    simp only [List.cons_append, pyReadlines, List.append_eq, if_neg hc, ih hcs]

theorem stripLeft_eq_self (e : List Char) (he : pyStrip e = e) :
    stripLeft e = e := by
  have h1 : (stripRight (stripLeft e)).length ≤ (stripLeft e).length := by
    unfold stripRight List.rdropWhile
    calc ((stripLeft e).reverse.dropWhile pyIsSpace).reverse.length
        = ((stripLeft e).reverse.dropWhile pyIsSpace).length := List.length_reverse _
      _ ≤ (stripLeft e).reverse.length := length_dropWhile_le _ _
      _ = (stripLeft e).length := List.length_reverse _
  have h2 : (stripLeft e).length ≤ e.length := length_dropWhile_le _ _
  have hlen : (stripLeft e).length = e.length := by
    have := congrArg List.length he
    unfold pyStrip at this
    omega
  have hsuf : stripLeft e <:+ e := by
    unfold stripLeft
    exact List.dropWhile_suffix _
  exact hsuf.eq_of_length hlen

theorem stripRight_eq_self (e : List Char) (he : pyStrip e = e) :
    stripRight e = e := by
  have h := stripLeft_eq_self e he
  unfold pyStrip at he
  rw [h] at he
  exact he

theorem pyStrip_append_newline (e : List Char) (he : pyStrip e = e) :
    pyStrip (e ++ ['\n']) = e := by
  cases e with
  | nil => decide
  | cons c cs =>
    have hl := stripLeft_eq_self (c :: cs) he
    have hr := stripRight_eq_self (c :: cs) he
    have hc : pyIsSpace c = false := by
      by_contra hcon
      simp only [Bool.not_eq_false] at hcon
      unfold stripLeft at hl
      rw [List.dropWhile_cons, if_pos hcon] at hl
      have := congrArg List.length hl
      have hle := length_dropWhile_le pyIsSpace cs
      simp at this
      omega
    have hleft : stripLeft ((c :: cs) ++ ['\n']) = (c :: cs) ++ ['\n'] := by
      unfold stripLeft
      rw [List.cons_append, List.dropWhile_cons, if_neg (by simp [hc])]
    have hnlsp : pyIsSpace '\n' = true := by decide
    unfold pyStrip
    rw [hleft]
    unfold stripRight
    rw [List.rdropWhile_concat_pos pyIsSpace (c :: cs) '\n' hnlsp]
    exact hr

/-- Round trip of the newline write-back: rewriting the queue file from a
list of well-formed entries and loading it again yields exactly those
entries, in order. -/
theorem loadAll_replaceWithNewline (entries : List (List Char))
    (h : ∀ e ∈ entries, goodEntry e) :
    loadAll (replaceWithNewline entries) = entries := by
  induction entries with
  | nil => rfl
  | cons e rest ih =>
    obtain ⟨hne, hst, hnl, -⟩ := h e (List.mem_cons_self e rest)
    have hrest := ih (fun x hx => h x (List.mem_cons_of_mem e hx))
    have hjoin : replaceWithNewline (e :: rest)
        = e ++ '\n' :: replaceWithNewline rest := by
      simp [replaceWithNewline]
    rw [hjoin]
    unfold loadAll
    rw [pyReadlines_append_newline e _ hnl]
    rw [List.map_cons, pyStrip_append_newline e hst, List.filter_cons]
    unfold loadAll at hrest
    rw [hrest, if_pos (by simpa using hne)]

theorem chunksOf_flatten (n : Nat) (hn : 0 < n) :
    ∀ l : List α, (chunksOf n l).flatten = l
  | [] => by rw [chunksOf]; rfl
  | c :: cs => by
    match n, hn with
    | m + 1, _ =>
      rw [chunksOf, List.flatten_cons,
        chunksOf_flatten (m + 1) (Nat.succ_pos m) ((c :: cs).drop (m + 1)),
        List.take_append_drop]
termination_by l => l.length
decreasing_by simp [List.length_drop]; omega


/-! ### Queue-processing pass lemmas -/

/-- The rewritten queue of one pass is exactly the ordered sublist of the
stripped snapshot lines selected by `keepsLine`. -/
theorem processLinesLog_fst (fe : List Char → Bool) (run : List Char → RunResult)
    (lines : List (List Char)) :
    (processLinesLog fe run lines).1 = (lines.map pyStrip).filter (keepsLine fe run) := by
  induction lines with
  | nil => rfl
  | cons l rest ih =>
    rw [List.map_cons, List.filter_cons]
    by_cases hb : pyStrip l = []
    · have hk : keepsLine fe run (pyStrip l) = false := by
        rw [hb]; rfl
      simp only [processLinesLog, hb, if_pos rfl, hk]
      simpa using ih
    · cases hp : parseEntryFixed (pyStrip l) with
      | none =>
        have hk : keepsLine fe run (pyStrip l) = false := by
          unfold keepsLine; rw [hp]
        simp only [processLinesLog, if_neg hb, hp, hk]
        simpa using ih
      | some ent =>
        by_cases hfe : fe ent.path
        · cases hr : run (pyStrip l) with
          | completed success =>
            cases success with
            | true =>
              have hk : keepsLine fe run (pyStrip l) = false := by
                unfold keepsLine; rw [hp, hr]; simp [hfe]
              simp only [processLinesLog, if_neg hb, hp, hfe, if_pos, hr, hk]
              simpa using ih
            | false =>
              have hk : keepsLine fe run (pyStrip l) = true := by
                unfold keepsLine; rw [hp, hr]; simp [hfe]
              simp only [processLinesLog, if_neg hb, hp, hfe, if_pos, hr, hk]
              simpa using ih
          | raised =>
            have hk : keepsLine fe run (pyStrip l) = true := by
              unfold keepsLine; rw [hp, hr]; simp [hfe]
            simp only [processLinesLog, if_neg hb, hp, hfe, if_pos, hr, hk]
            simpa using ih
        · have hk : keepsLine fe run (pyStrip l) = false := by
            unfold keepsLine; rw [hp]; simp [hfe]
          simp only [processLinesLog, if_neg hb, hp, hfe, hk]
          simpa using ih

/-- The attempt log of one pass is exactly the ordered sublist of the
stripped snapshot lines selected by `attemptsLine`. -/
theorem processLinesLog_snd (fe : List Char → Bool) (run : List Char → RunResult)
    (lines : List (List Char)) :
    (processLinesLog fe run lines).2 = (lines.map pyStrip).filter (attemptsLine fe) := by
  induction lines with
  | nil => rfl
  | cons l rest ih =>
    rw [List.map_cons, List.filter_cons]
    by_cases hb : pyStrip l = []
    · have hk : attemptsLine fe (pyStrip l) = false := by
        rw [hb]; rfl
      simp only [processLinesLog, hb, if_pos rfl, hk]
      simpa using ih
    · cases hp : parseEntryFixed (pyStrip l) with
      | none =>
        have hk : attemptsLine fe (pyStrip l) = false := by
          unfold attemptsLine; rw [hp]
        simp only [processLinesLog, if_neg hb, hp, hk]
        simpa using ih
      | some ent =>
        by_cases hfe : fe ent.path
        · have hk : attemptsLine fe (pyStrip l) = true := by
            unfold attemptsLine; rw [hp]; simp [hfe]
          cases hr : run (pyStrip l) with
          | completed success =>
            cases success <;>
              simp only [processLinesLog, if_neg hb, hp, hfe, if_pos, hr, hk] <;>
              simpa using ih
          | raised =>
            simp only [processLinesLog, if_neg hb, hp, hfe, if_pos, hr, hk]
            simpa using ih
        · have hk : attemptsLine fe (pyStrip l) = false := by
            unfold attemptsLine; rw [hp]; simp [hfe]
          simp only [processLinesLog, if_neg hb, hp, hfe, hk]
          simpa using ih

/-- A line whose stripped form fails the parse, or whose file is
missing, contributes to neither the rewritten queue nor the attempt log
of a pass. -/
theorem processLinesLog_drops (fe : List Char → Bool) (run : List Char → RunResult)
    (lines : List (List Char)) (l : List Char)
    (h : parseEntryFixed (pyStrip l) = none
      ∨ ∃ ent, parseEntryFixed (pyStrip l) = some ent ∧ fe ent.path = false) :
    pyStrip l ∉ (processLinesLog fe run lines).1
    ∧ pyStrip l ∉ (processLinesLog fe run lines).2 := by
  have h1 : keepsLine fe run (pyStrip l) = false := by
    unfold keepsLine
    rcases h with hnone | ⟨ent, hsome, hfe⟩
    · rw [hnone]
    · rw [hsome]; simp [hfe]
  have h2 : attemptsLine fe (pyStrip l) = false := by
    unfold attemptsLine
    rcases h with hnone | ⟨ent, hsome, hfe⟩
    · rw [hnone]
    · rw [hsome]; exact hfe
  rw [processLinesLog_fst, processLinesLog_snd]
  constructor
  · intro hmem
    have := List.of_mem_filter hmem
    rw [h1] at this
    exact Bool.false_ne_true this
  · intro hmem
    have := List.of_mem_filter hmem
    rw [h2] at this
    exact Bool.false_ne_true this

/-! ### Endpoint-fallback lemma -/

/-- `tryEndpoints` succeeds iff some endpoint does, and the endpoints
tried are exactly the failing ones before the first success, plus the
first success if there is one. -/
theorem tryEndpoints_spec (res : Endpoint → HttpResult) (eps : List Endpoint) :
    tryEndpoints res eps
      = (eps.any (fun e => tryWebUpload (res e)),
         eps.takeWhile (fun e => !tryWebUpload (res e))
           ++ (eps.dropWhile (fun e => !tryWebUpload (res e))).take 1) := by
  induction eps with
  | nil => rfl
  | cons e rest ih =>
    by_cases he : tryWebUpload (res e)
    · simp [tryEndpoints, he, List.takeWhile_cons, List.dropWhile_cons]
    · simp only [tryEndpoints, he, if_neg, ite_false, ih, List.any_cons,
        List.takeWhile_cons, List.dropWhile_cons]
      simp [he]

/-- With an attempt function that always fails, the retry loop uses all
its budget and sleeps between consecutive attempts only. -/
theorem retryLoop_all_false (f : Nat → Bool) (d : Nat) (hf : ∀ i, f i = false) :
    ∀ rem i, retryLoop f d rem i = (false, rem, List.replicate (rem - 1) d)
  | 0, _ => rfl
  | rem + 1, i => by
    simp only [retryLoop, hf i, if_neg, ite_false,
      retryLoop_all_false f d hf rem (i + 1)]
    cases rem with
    | zero => simp
    | succ r => simp [List.replicate_succ]

/-! ## Claim theorems -/

/-- C1: the queue round-trip (`replaceWith(entries)` then `loadAll` gives
back exactly `entries`) holds for the newline write-back of
data-uploader-fixed.py line 310, but fails for the write-back of
ssh-uploader.py line 206 (and simple-satellite-uploader.py line 187),
which appends the two literal characters `\` `n` instead of a newline:
rewriting two entries produces a file whose next load yields a single
mangled entry — the whole file content. -/
theorem C1_escaped_writeback_breaks_roundtrip :
    loadAll (replaceWithNewline [sampleLine, sampleLine2]) = [sampleLine, sampleLine2]
    ∧ loadAll (replaceWithEscaped [sampleLine, sampleLine2]) ≠ [sampleLine, sampleLine2]
    ∧ loadAll (replaceWithEscaped [sampleLine, sampleLine2])
        = [replaceWithEscaped [sampleLine, sampleLine2]] := by
  refine ⟨by decide, by decide, by decide⟩

/-- C4 counterexample: status 204 lies in the 2xx range, yet both
`_try_web_upload` (data-uploader-fixed.py line 161) and
`upload_via_basic_http` (simple-upload.py line 30) report failure for
it. -/
theorem C4_status_204_reports_failure :
    200 ≤ 204 ∧ 204 ≤ 299
    ∧ tryWebUpload (HttpResult.status 204) = false
    ∧ uploadViaBasicHttp (HttpResult.status 204) = false := by decide

/-- C4 (amended): `_try_web_upload` reports success exactly for status
codes 200, 201 and 202 — every other code, inside or outside 2xx, is a
failure for that endpoint — and `upload_via_basic_http` succeeds exactly
for status 200. -/
theorem C4_accepted_statuses (code : Nat) :
    (tryWebUpload (HttpResult.status code) = true ↔ code = 200 ∨ code = 201 ∨ code = 202)
    ∧ ((code < 200 ∨ 300 ≤ code) → tryWebUpload (HttpResult.status code) = false)
    ∧ (uploadViaBasicHttp (HttpResult.status code) = true ↔ code = 200) := by
  refine ⟨?_, ?_, ?_⟩
  · simp [tryWebUpload]
    tauto
  · intro h
    simp only [tryWebUpload, Bool.or_eq_false_iff, beq_eq_false_iff_ne]
    omega
  · simp [uploadViaBasicHttp]

/-- C4 witness: a 404 response reports failure. -/
theorem C4_witness : tryWebUpload (HttpResult.status 404) = false :=
  (C4_accepted_statuses 404).2.1 (Or.inr (by omega))

/-- C8 counterexample: for an image file whose secure copy succeeded
(return code 0), a `subprocess.TimeoutExpired` raised by the follow-up
`ln -sf` command reaches the outer handler of `upload_file_ssh`
(ssh-uploader.py line 116) and the strategy reports failure even though
the file was delivered. -/
theorem C8_symlink_timeout_fails_strategy :
    upload_file_ssh true 5 (".jpg".toList) (ProcResult.completed 0) ProcResult.timeout
      = (false, true) := by decide

/-- C8 (amended): when the secure copy succeeds, the SCP strategy
reports success regardless of the pointer-update command's exit code
(its `CompletedProcess` result is ignored); only a pointer-update
timeout fails the strategy.  The pointer update runs exactly for files
routed to the images bucket. -/
theorem C8_scp_success_ignores_symlink_exit (size : Nat) (ext : List Char) (rc : Nat)
    (hsize : size ≤ sshSizeLimit) :
    (get_upload_path ext = Bucket.images →
      upload_file_ssh true size ext (ProcResult.completed 0) (ProcResult.completed rc)
        = (true, true))
    ∧ (get_upload_path ext ≠ Bucket.images → ∀ sym,
      upload_file_ssh true size ext (ProcResult.completed 0) sym = (true, false)) := by
  have hsz : ¬ size > sshSizeLimit := by omega
  constructor
  · intro himg
    unfold upload_file_ssh
    simp [hsz, himg]
  · intro hnimg sym
    unfold upload_file_ssh
    simp [hsz, hnimg]

/-- C8 witness: a `.jpg` upload whose copy succeeds and whose symlink
update exits 1 still reports success, with the symlink attempted. -/
theorem C8_witness :
    upload_file_ssh true 5 (".jpg".toList) (ProcResult.completed 0) (ProcResult.completed 1)
      = (true, true) :=
  (C8_scp_success_ignores_symlink_exit 5 (".jpg".toList) 1 (by decide)).1 (by decide)

/-- C3 counterexample: the spec's own 4-field example line is dropped,
not treated as valid, by data-uploader.py's queue processing, which
requires exactly 3 fields (line 268: `if len(parts) != 3`). -/
theorem C3_orig_variant_drops_four_fields :
    (pySplit '|' sampleLine).length = 4 ∧ parseEntryOrig sampleLine = none := by
  refine ⟨by decide, by decide⟩

/-- C3 (amended): in data-uploader-fixed.py (and the ssh/simple
variants) a 4-field line is valid with the 4th field as the kind, a
3-field line is valid with kind defaulting to `"RAW"`, and a line with
fewer than 3 fields is dropped; in data-uploader.py only exactly-3-field
lines are valid — a 4-field line is dropped there too. -/
theorem C3_field_count_parsing (line : List Char) :
    ((pySplit '|' line).length = 4 →
      parseEntryFixed line
        = some ⟨(pySplit '|' line).getD 0 [], (pySplit '|' line).getD 1 [],
            (pySplit '|' line).getD 2 [], (pySplit '|' line).getD 3 []⟩
      ∧ parseEntryOrig line = none)
    ∧ ((pySplit '|' line).length = 3 →
      parseEntryFixed line
        = some ⟨(pySplit '|' line).getD 0 [], (pySplit '|' line).getD 1 [],
            (pySplit '|' line).getD 2 [], ("RAW".toList)⟩
      ∧ parseEntryOrig line
        = some ((pySplit '|' line).getD 0 [], (pySplit '|' line).getD 1 [],
            (pySplit '|' line).getD 2 []))
    ∧ ((pySplit '|' line).length < 3 →
      parseEntryFixed line = none ∧ parseEntryOrig line = none) := by
  refine ⟨fun h4 => ?_, fun h3 => ?_, fun hlt => ?_⟩
  · have hge : ¬ (pySplit '|' line).length < 3 := by omega
    have hgt : (pySplit '|' line).length > 3 := by omega
    have hne : (pySplit '|' line).length ≠ 3 := by omega
    exact ⟨by simp [parseEntryFixed, hge, hgt], by simp [parseEntryOrig, hne]⟩
  · have hge : ¬ (pySplit '|' line).length < 3 := by omega
    have hngt : ¬ (pySplit '|' line).length > 3 := by omega
    exact ⟨by simp [parseEntryFixed, hge, hngt], by simp [parseEntryOrig, h3]⟩
  · have hne : (pySplit '|' line).length ≠ 3 := by omega
    exact ⟨by simp [parseEntryFixed, hlt], by simp [parseEntryOrig, hne]⟩

/-- C3 witness: the sample 4-field line parses in the fixed variant with
kind `"RAW"` taken from its 4th field, and is rejected by the original
variant. -/
theorem C3_witness :
    parseEntryFixed sampleLine
      = some ⟨(pySplit '|' sampleLine).getD 0 [], (pySplit '|' sampleLine).getD 1 [],
          (pySplit '|' sampleLine).getD 2 [], (pySplit '|' sampleLine).getD 3 []⟩
    ∧ parseEntryOrig sampleLine = none :=
  (C3_field_count_parsing sampleLine).1 (by decide)

/-- C2 counterexample: an entry whose file is one byte over the cap is
not dropped: even with a server that would answer 200 everywhere,
`upload_via_direct_web` fails, the retry loop runs all 3 attempts, and
the entry appears in the rewritten queue. -/
theorem C2_oversize_requeued_counterexample :
    remainingLines (fun _ => true)
      (fun _ => RunResult.completed
        (retryLoop (fun _ => (uploadFileMethods false
            (uploadViaDirectWeb (some oversizeInfo) (fun _ => HttpResult.status 200)).1).1)
          retryDelaySeconds retryAttempts 0).1)
      [sampleLine]
      = [sampleLine]
    ∧ (retryLoop (fun _ => (uploadFileMethods false
          (uploadViaDirectWeb (some oversizeInfo) (fun _ => HttpResult.status 200)).1).1)
        retryDelaySeconds retryAttempts 0).2.1 = 3 := by
  refine ⟨by decide, by decide⟩

/-- C2 (amended): an oversize file makes the web strategy fail before
any endpoint is tried (a warning is logged), exactly like a transport
failure: with FTP also failing, the entry is retried for the full
3-attempt budget and then kept in the rewritten queue — it is not
dropped the way a missing file or malformed line is.  In the ssh
variant, a file over 1 GB likewise makes `upload_file_ssh` fail
unconditionally. -/
theorem C2_oversize_is_strategy_failure (fi : FileInfo) (res : Endpoint → HttpResult)
    (ftp : Nat → Bool) (line : List Char) (ent : Entry)
    (hsize : fi.size > maxFileSizeFixed) (hftp : ∀ i, ftp i = false)
    (hline : parseEntryFixed (pyStrip line) = some ent) :
    uploadViaDirectWeb (some fi) res = (false, [])
    ∧ retryLoop (fun i => (uploadFileMethods (ftp i) (uploadViaDirectWeb (some fi) res).1).1)
        retryDelaySeconds retryAttempts 0
      = (false, 3, [retryDelaySeconds, retryDelaySeconds])
    ∧ remainingLines (fun _ => true)
        (fun _ => RunResult.completed
          (retryLoop (fun i => (uploadFileMethods (ftp i) (uploadViaDirectWeb (some fi) res).1).1)
            retryDelaySeconds retryAttempts 0).1)
        [line]
      = [pyStrip line]
    ∧ (∀ size, size > sshSizeLimit → ∀ ext scp sym,
        upload_file_ssh true size ext scp sym = (false, false)) := by
  have hweb : uploadViaDirectWeb (some fi) res = (false, []) := by
    simp [uploadViaDirectWeb, hsize]
  have hall : ∀ i, (uploadFileMethods (ftp i) (uploadViaDirectWeb (some fi) res).1).1 = false := by
    intro i
    rw [hweb]
    simp [uploadFileMethods, hftp i]
  have hloop := retryLoop_all_false _ retryDelaySeconds hall retryAttempts 0
  refine ⟨hweb, ?_, ?_, ?_⟩
  · rw [hloop]; rfl
  · rw [hloop]
    have hne : pyStrip line ≠ [] := by
      intro hc
      rw [hc] at hline
      simp [parseEntryFixed, pySplit] at hline
    unfold remainingLines
    rw [processLinesLog_fst]
    simp [keepsLine, hline]
  · intro size hsz ext scp sym
    unfold upload_file_ssh
    simp [hsz]

/-- C2 witness: the concrete oversize scenario of the counterexample
satisfies the amended claim's hypotheses. -/
theorem C2_witness :
    uploadViaDirectWeb (some oversizeInfo) (fun _ => HttpResult.status 200) = (false, []) :=
  (C2_oversize_is_strategy_failure oversizeInfo (fun _ => HttpResult.status 200)
    (fun _ => false) sampleLine sampleEntry (by decide) (fun _ => rfl) (by decide)).1

/-- C5: with both strategies failing on every attempt and the configured
retry budget of 3 (`SERVER_CONFIG["retry_attempts"]`), the orchestrator
makes exactly 3 full passes over the 2-strategy list `[FTP, Web]` for
the entry, sleeping the fixed 60-second delay after the first and second
passes but not after the third, marks the entry failed, and the entry
stays in the rewritten queue unchanged. -/
theorem C5_retry_exhaustion_three_passes (ftp web : Nat → Bool) (line : List Char)
    (ent : Entry) (hftp : ∀ i, ftp i = false) (hweb : ∀ i, web i = false)
    (hline : parseEntryFixed (pyStrip line) = some ent) :
    retryLoop (fun i => (uploadFileMethods (ftp i) (web i)).1) retryDelaySeconds retryAttempts 0
      = (false, 3, [retryDelaySeconds, retryDelaySeconds])
    ∧ (∀ i, (uploadFileMethods (ftp i) (web i)).2 = 2)
    ∧ remainingLines (fun _ => true)
        (fun _ => RunResult.completed
          (retryLoop (fun i => (uploadFileMethods (ftp i) (web i)).1)
            retryDelaySeconds retryAttempts 0).1)
        [line]
      = [pyStrip line] := by
  have hall : ∀ i, (uploadFileMethods (ftp i) (web i)).1 = false := by
    intro i
    simp [uploadFileMethods, hftp i, hweb i]
  have hloop := retryLoop_all_false _ retryDelaySeconds hall retryAttempts 0
  refine ⟨by rw [hloop]; rfl, ?_, ?_⟩
  · intro i
    simp [uploadFileMethods, hftp i, hweb i]
  · rw [hloop]
    unfold remainingLines
    rw [processLinesLog_fst]
    simp [keepsLine, hline]

/-- C5 witness: concrete always-failing strategies on the sample line. -/
theorem C5_witness :
    retryLoop (fun i => (uploadFileMethods ((fun _ : Nat => false) i) ((fun _ : Nat => false) i)).1)
      retryDelaySeconds retryAttempts 0
      = (false, 3, [retryDelaySeconds, retryDelaySeconds])
    ∧ (∀ i, (uploadFileMethods ((fun _ : Nat => false) i) ((fun _ : Nat => false) i)).2 = 2)
    ∧ remainingLines (fun _ => true)
        (fun _ => RunResult.completed
          (retryLoop (fun i => (uploadFileMethods ((fun _ : Nat => false) i) ((fun _ : Nat => false) i)).1)
            retryDelaySeconds retryAttempts 0).1)
        [sampleLine]
      = [pyStrip sampleLine] :=
  C5_retry_exhaustion_three_passes (fun _ => false) (fun _ => false) sampleLine sampleEntry
    (fun _ => rfl) (fun _ => rfl) (by decide)

/-- C6: an entry whose line has fewer than 3 fields, or whose source
file does not exist when the entry is reached, is dropped by the pass
without any delivery attempt: it is neither in the rewritten queue nor
in the attempt log. -/
theorem C6_missing_or_malformed_dropped (fe : List Char → Bool) (run : List Char → RunResult)
    (lines : List (List Char)) (l : List Char)
    (h : parseEntryFixed (pyStrip l) = none
      ∨ ∃ ent, parseEntryFixed (pyStrip l) = some ent ∧ fe ent.path = false) :
    pyStrip l ∉ remainingLines fe run lines
    ∧ pyStrip l ∉ (processLinesLog fe run lines).2 :=
  processLinesLog_drops fe run lines l h

/-- C6 witness: a malformed line (no pipes) in a singleton queue is
absent from both the rewritten queue and the attempt log. -/
theorem C6_witness :
    pyStrip ("garbage".toList)
        ∉ remainingLines (fun _ => true) (fun _ => RunResult.raised) [("garbage".toList)]
    ∧ pyStrip ("garbage".toList)
        ∉ (processLinesLog (fun _ => true) (fun _ => RunResult.raised) [("garbage".toList)]).2 :=
  C6_missing_or_malformed_dropped (fun _ => true) (fun _ => RunResult.raised)
    [("garbage".toList)] ("garbage".toList) (Or.inl (by decide))

/-- C7: for a file within the size cap, the HTTP multi-endpoint strategy
tries `images/`, then `raw/`, then the root for an image, and starts at
`raw/` for a non-image; the endpoints actually tried are the failing
ones before the first success plus that success (so the first success
stops the sequence), a network-level exception counts as an ordinary
endpoint failure (so it does not abort the remaining endpoints), and in
particular an image whose `images/` POST raises a network exception and
whose `raw/` POST returns 200 succeeds after trying exactly those two. -/
theorem C7_endpoint_fallback_order (fi : FileInfo) (res : Endpoint → HttpResult)
    (hsize : fi.size ≤ maxFileSizeFixed) :
    uploadViaDirectWeb (some fi) res
      = ((if fi.isImage then [Endpoint.images, Endpoint.raw, Endpoint.root]
          else [Endpoint.raw, Endpoint.root]).any (fun e => tryWebUpload (res e)),
         (if fi.isImage then [Endpoint.images, Endpoint.raw, Endpoint.root]
          else [Endpoint.raw, Endpoint.root]).takeWhile (fun e => !tryWebUpload (res e))
           ++ ((if fi.isImage then [Endpoint.images, Endpoint.raw, Endpoint.root]
              else [Endpoint.raw, Endpoint.root]).dropWhile
                (fun e => !tryWebUpload (res e))).take 1)
    ∧ tryWebUpload HttpResult.netExn = false
    ∧ (fi.isImage = true → res Endpoint.images = HttpResult.netExn
        → res Endpoint.raw = HttpResult.status 200
        → uploadViaDirectWeb (some fi) res = (true, [Endpoint.images, Endpoint.raw])) := by
  have hmain : uploadViaDirectWeb (some fi) res
      = tryEndpoints res
          (if fi.isImage then [Endpoint.images, Endpoint.raw, Endpoint.root]
           else [Endpoint.raw, Endpoint.root]) := by
    simp only [uploadViaDirectWeb]
    rw [if_neg (by omega)]
  refine ⟨?_, rfl, ?_⟩
  · rw [hmain, tryEndpoints_spec]
  · intro himg hni hnr
    rw [hmain, himg]
    simp [tryEndpoints, hni, hnr, tryWebUpload]

/-- C7 witness: an in-cap image whose `images/` POST raises a network
exception and whose `raw/` POST returns 200 reports success after
trying `images/` then `raw/`. -/
theorem C7_witness :
    uploadViaDirectWeb (some ⟨5, true⟩)
      (fun e => match e with
        | Endpoint.images => HttpResult.netExn
        | Endpoint.raw => HttpResult.status 200
        | Endpoint.root => HttpResult.status 500)
      = (true, [Endpoint.images, Endpoint.raw]) :=
  (C7_endpoint_fallback_order ⟨5, true⟩
    (fun e => match e with
      | Endpoint.images => HttpResult.netExn
      | Endpoint.raw => HttpResult.status 200
      | Endpoint.root => HttpResult.status 500)
    (by decide)).2.2 rfl rfl rfl

/-- C9: the fingerprint is a function of the byte content alone —
hashing through the 4096-byte chunked read equals hashing the whole
content, so two paths (in possibly different filesystem states) with
byte-identical content get the same digest, independent of path and of
any filesystem metadata, and hashing the same unmodified file twice
yields the same digest. -/
theorem C9_hash_content_determined (fs1 fs2 : FS) (p1 p2 : List Char)
    (h : fs1 p1 = fs2 p2) :
    calculate_file_hash fs1 p1 = calculate_file_hash fs2 p2
    ∧ calculate_file_hash fs1 p1 = (fs1 p1).map (fun content => sha256hex content) := by
  constructor
  · unfold calculate_file_hash
    rw [h]
  · unfold calculate_file_hash
    cases hc : fs1 p1 with
    | none => rfl
    | some content =>
      show some (sha256hex ((chunksOf 4096 content).flatten)) = _
      rw [chunksOf_flatten 4096 (by omega) content]
      rfl

/-- C9 witness: two distinct paths mapping to the same 3-byte content
hash identically. -/
theorem C9_witness :
    calculate_file_hash (fun _ => some [0, 1, 2]) ("/a".toList)
      = calculate_file_hash (fun _ => some [0, 1, 2]) ("/b".toList)
    ∧ calculate_file_hash (fun _ => some [0, 1, 2]) ("/a".toList)
      = ((fun _ => some [0, 1, 2]) ("/a".toList)).map (fun content => sha256hex content) :=
  C9_hash_content_determined (fun _ => some [0, 1, 2]) (fun _ => some [0, 1, 2])
    ("/a".toList) ("/b".toList) rfl

/-- C10: conservation over one pass — the rewritten queue is exactly the
ordered sublist of stripped snapshot lines kept by `keepsLine`, the
attempt log exactly those selected by `attemptsLine`, and a line is kept
iff it was attempted and the upload block did not report success; hence
every snapshot entry is accounted for exactly once (delivered and
absent, dropped as local-input and absent, or preserved verbatim), and
an entry whose block raises an unexpected exception is requeued
unchanged rather than lost. -/
theorem C10_snapshot_conservation (fe : List Char → Bool) (run : List Char → RunResult)
    (lines : List (List Char)) :
    (processLinesLog fe run lines).1 = (lines.map pyStrip).filter (keepsLine fe run)
    ∧ (processLinesLog fe run lines).2 = (lines.map pyStrip).filter (attemptsLine fe)
    ∧ ∀ line, keepsLine fe run line
        = (attemptsLine fe line && decide (run line ≠ RunResult.completed true)) := by
  refine ⟨processLinesLog_fst fe run lines, processLinesLog_snd fe run lines, ?_⟩
  intro line
  unfold keepsLine attemptsLine
  cases parseEntryFixed line with
  | none => simp
  | some ent => rfl

end SatPi
